import Mathlib

/-!
Shallow embedding of the pathfinder state-commitment store
(`crates/pathfinder/src/storage/state.rs`): the `global_state` table with its
foreign key into the external Ethereum anchor store, the `contract_states`
table, the schema migrator, and the byte-level encoding used for every
hash/root column.
-/

set_option maxRecDepth 8000

/-- A raw byte string as stored in a BLOB column: a list of byte values. -/
abbrev Bytes := List Nat

/-- Big-endian encoding of a natural number into `k` bytes (most significant
first), mirroring the fixed-width buffers the store writes. -/
def natToBeBytes : Nat → Nat → Bytes
  | 0, _ => []
  | k + 1, n => natToBeBytes k (n / 256) ++ [n % 256]

/-- The 32-byte big-endian buffer written for every hash/root value
(`StarkHash::to_be_bytes` and `H256::as_bytes` in the source). -/
def toBeBytes (n : Nat) : Bytes := natToBeBytes 32 n

/-- The numeric value of a big-endian byte string. -/
def beValue (bs : Bytes) : Nat := bs.foldl (fun acc b => acc * 256 + b) 0

/-- One row of the `global_state` table. Column values are stored exactly as
the SQL statement binds them: BLOB columns hold byte strings, INTEGER columns
hold numbers. -/
structure GlobalStateRow where
  starknet_block_hash : Bytes
  starknet_block_number : Nat
  starknet_global_root : Bytes
  ethereum_transaction_hash : Bytes
  ethereum_log_index : Nat
deriving DecidableEq

/-- Modelled from the spec: one row of the external Ethereum anchor store's
`ethereum_transactions` table (`insert(block_hash, tx_hash, tx_index)`); the
column names are those the natural join and `row.get` calls use. -/
structure EthereumTransactionsRow where
  ethereum_block_hash : Bytes
  ethereum_transaction_hash : Bytes
  ethereum_transaction_index : Nat
deriving DecidableEq

/-- Modelled from the spec: one row of the external Ethereum anchor store's
`ethereum_blocks` table (`insert(block_hash, block_number)`). -/
structure EthereumBlocksRow where
  ethereum_block_hash : Bytes
  ethereum_block_number : Nat
deriving DecidableEq

/-- One row of the `contract_states` table. -/
structure ContractStatesRow where
  state_hash : Bytes
  hash : Bytes
  root : Bytes
deriving DecidableEq

/-- The database state visible to this store: the two owned tables plus the
two external anchor tables joined against. -/
structure DB where
  global_state : List GlobalStateRow
  ethereum_transactions : List EthereumTransactionsRow
  ethereum_blocks : List EthereumBlocksRow
  contract_states : List ContractStatesRow
deriving DecidableEq

/-- The error kinds the store surfaces, named as in the spec: a foreign-key
violation on `global_state` insert, a primary-key violation on
`contract_states` insert, a failed parse of stored bytes, an unsupported
migration version, and DDL against an existing table. -/
inductive StoreError where
  | DanglingReference
  | DuplicateKey
  | DecodeError (msg : String)
  | UnknownSchemaVersion (v : Nat)
  | TableAlreadyExists (table : String)
deriving DecidableEq

/-- Which of the two owned tables exist; the migrator's DDL state. -/
structure Schema where
  global_state_created : Bool
  contract_states_created : Bool
deriving DecidableEq

/-- Modelled from the spec: the `DB_VERSION_EMPTY` constant of the storage
module (a fresh database). -/
def DB_VERSION_EMPTY : Nat := 0

/-- Modelled from the spec: the `DB_VERSION_CURRENT` constant of the storage
module (the schema these tables implement); distinct from the empty version. -/
def DB_VERSION_CURRENT : Nat := 1

/-- Modelled from the spec: `StarkHash::from_be_slice` of the `pedersen`
crate (not among the sources). Per the spec every hash/root value is a
252-bit field element encoded as a fixed 32-byte big-endian buffer, and a
wrong byte length or an overflowing value fails to parse. -/
def starkHashFromBeSlice (bs : Bytes) : Option Nat :=
  if bs.length = 32 ∧ beValue bs < 2 ^ 252 then some (beValue bs) else none

/-- Modelled from the spec: `StarkHash::from_be_bytes` of the `pedersen`
crate on a buffer whose 32-byte length the caller has already checked; fails
when the value does not fit in 252 bits. -/
def starkHashFromBeBytes (bs : Bytes) : Option Nat :=
  if beValue bs < 2 ^ 252 then some (beValue bs) else none

/-- `vec_to_h256` from `get_latest_state`: succeeds exactly when the stored
blob is exactly 32 bytes, yielding the value of those bytes. -/
def vecToH256 (bs : Bytes) : Option Nat :=
  if bs.length = 32 then some (beValue bs) else none

/-- `GlobalStateTable::migrate`: create `global_state` on an empty database,
no-op at the current version, fail otherwise. The DDL has no
`IF NOT EXISTS`, so creating an existing table errors. -/
def GlobalStateTable.migrate (s : Schema) (from_version : Nat) :
    Except StoreError Unit × Schema :=
  if from_version = DB_VERSION_EMPTY then
    if s.global_state_created then (.error (.TableAlreadyExists "global_state"), s)
    else (.ok (), { s with global_state_created := true })
  else if from_version = DB_VERSION_CURRENT then (.ok (), s)
  else (.error (.UnknownSchemaVersion from_version), s)

/-- `ContractsStateTable::migrate`: create `contract_states` on an empty
database, no-op at the current version, fail otherwise. -/
def ContractsStateTable.migrate (s : Schema) (from_version : Nat) :
    Except StoreError Unit × Schema :=
  if from_version = DB_VERSION_EMPTY then
    if s.contract_states_created then (.error (.TableAlreadyExists "contract_states"), s)
    else (.ok (), { s with contract_states_created := true })
  else if from_version = DB_VERSION_CURRENT then (.ok (), s)
  else (.error (.UnknownSchemaVersion from_version), s)

/-- Top-level `migrate`: runs the global-state migration, then the
contracts-state migration, stopping at the first error. -/
def migrate (s : Schema) (from_version : Nat) : Except StoreError Unit × Schema :=
  match GlobalStateTable.migrate s from_version with
  | (.error e, s1) => (.error e, s1)
  | (.ok _, s1) => ContractsStateTable.migrate s1 from_version

/-- `GlobalStateTable::insert`: `INSERT ... ON CONFLICT DO NOTHING` into
`global_state`. A row whose `starknet_block_hash` already exists is skipped
(success, nothing written; the skipped row is never checked against the
foreign key). Otherwise the foreign key on `ethereum_transaction_hash` must
find a matching row in `ethereum_transactions`, or the statement fails and
writes nothing. -/
def GlobalStateTable.insert (db : DB) (block_number : Nat) (block_hash : Nat)
    (global_root : Nat) (eth_transaction : Nat) (eth_log_index : Nat) :
    Except StoreError Unit × DB :=
  if db.global_state.any (fun g => g.starknet_block_hash == toBeBytes block_hash) then
    (.ok (), db)
  else if db.ethereum_transactions.any
      (fun t => t.ethereum_transaction_hash == toBeBytes eth_transaction) then
    (.ok (), { db with global_state := db.global_state ++
      [{ starknet_block_hash := toBeBytes block_hash
         starknet_block_number := block_number
         starknet_global_root := toBeBytes global_root
         ethereum_transaction_hash := toBeBytes eth_transaction
         ethereum_log_index := eth_log_index }] })
  else
    (.error .DanglingReference, db)

/-- A row of `global_state NATURAL JOIN ethereum_transactions NATURAL JOIN
ethereum_blocks`. -/
abbrev JoinedRow := GlobalStateRow × EthereumTransactionsRow × EthereumBlocksRow

/-- The natural join of `get_latest_state`: the only column shared between
`global_state` and `ethereum_transactions` is `ethereum_transaction_hash`,
and the only column their join shares with `ethereum_blocks` is
`ethereum_block_hash`. -/
def joinRows (db : DB) : List JoinedRow :=
  db.global_state.flatMap fun g =>
    db.ethereum_transactions.flatMap fun t =>
      db.ethereum_blocks.flatMap fun b =>
        if t.ethereum_transaction_hash = g.ethereum_transaction_hash ∧
            b.ethereum_block_hash = t.ethereum_block_hash
        then [(g, t, b)] else []

/-- The sort key of `ORDER BY starknet_block_number DESC`. -/
def blockNumOf (z : JoinedRow) : Nat := z.1.starknet_block_number

/-- One step of selecting a maximal row: keep whichever of the accumulator
and the next row has the larger `starknet_block_number`. -/
def maxStep (acc : Option JoinedRow) (z : JoinedRow) : Option JoinedRow :=
  match acc with
  | none => some z
  | some m => if blockNumOf m < blockNumOf z then some z else some m

/-- `ORDER BY starknet_block_number DESC LIMIT 1`: a row of maximal
`starknet_block_number`, or `none` on an empty join. -/
def argmaxJoined (rows : List JoinedRow) : Option JoinedRow :=
  rows.foldl maxStep none

/-- The record `get_latest_state` materializes from the joined row. -/
structure GlobalStateRecord where
  block_number : Nat
  block_hash : Nat
  global_root : Nat
  eth_block_number : Nat
  eth_block_hash : Nat
  eth_tx_hash : Nat
  eth_tx_index : Nat
  eth_log_index : Nat
deriving DecidableEq

/-- The decode step of `get_latest_state`, in the source's parse order:
StarkNet block hash, global root (both `from_be_slice`), Ethereum
transaction hash, Ethereum block hash (both `vec_to_h256`). Any failed
parse aborts with a `DecodeError`. -/
def decodeGlobalStateRow (g : GlobalStateRow) (t : EthereumTransactionsRow)
    (b : EthereumBlocksRow) : Except StoreError GlobalStateRecord :=
  match starkHashFromBeSlice g.starknet_block_hash with
  | none => .error (.DecodeError "Failed to parse StarkNet block hash")
  | some bh =>
    match starkHashFromBeSlice g.starknet_global_root with
    | none => .error (.DecodeError "Failed to parse StarkNet global state root")
    | some gr =>
      match vecToH256 g.ethereum_transaction_hash with
      | none => .error (.DecodeError "Failed to parse Ethereum transaction hash")
      | some th =>
        match vecToH256 t.ethereum_block_hash with
        | none => .error (.DecodeError "Failed to parse Ethereum block hash")
        | some ebh =>
          .ok { block_number := g.starknet_block_number
                block_hash := bh
                global_root := gr
                eth_block_number := b.ethereum_block_number
                eth_block_hash := ebh
                eth_tx_hash := th
                eth_tx_index := t.ethereum_transaction_index
                eth_log_index := g.ethereum_log_index }

/-- `GlobalStateTable::get_latest_state`: pick a maximal-`block_number` row
of the three-way natural join (or `none` when the join is empty) and decode
its blob columns back into fixed-width values. -/
def GlobalStateTable.get_latest_state (db : DB) :
    Except StoreError (Option GlobalStateRecord) :=
  match argmaxJoined (joinRows db) with
  | none => .ok none
  | some (g, t, b) =>
    match decodeGlobalStateRow g t b with
    | .ok rec => .ok (some rec)
    | .error e => .error e

/-- `ContractsStateTable::insert`: plain `INSERT` into `contract_states`;
fails on a `state_hash` primary-key collision, writing nothing. -/
def ContractsStateTable.insert (db : DB) (state_hash : Nat) (hash : Nat)
    (root : Nat) : Except StoreError Unit × DB :=
  if db.contract_states.any (fun row => row.state_hash == toBeBytes state_hash) then
    (.error .DuplicateKey, db)
  else
    (.ok (), { db with contract_states := db.contract_states ++
      [{ state_hash := toBeBytes state_hash
         hash := toBeBytes hash
         root := toBeBytes root }] })

/-- `ContractsStateTable::get_root`: look up the row keyed by `state_hash`;
absence is `none`, and a found row's `root` blob must be exactly 32 bytes
(`try_into [u8; 32]`) and parse via `from_be_bytes`. -/
def ContractsStateTable.get_root (db : DB) (state_hash : Nat) :
    Except StoreError (Option Nat) :=
  match db.contract_states.find? (fun row => row.state_hash == toBeBytes state_hash) with
  | none => .ok none
  | some row =>
    if row.root.length = 32 then
      match starkHashFromBeBytes row.root with
      | some r => .ok (some r)
      | none => .error (.DecodeError "Overflow in contract root")
    else
      .error (.DecodeError "Bad contract root length")

/-- A `global_state` row keyed by block hash 5, anchored to transaction
hash 3. -/
def rowBlock5 : GlobalStateRow :=
  { starknet_block_hash := toBeBytes 5
    starknet_block_number := 7
    starknet_global_root := toBeBytes 9
    ethereum_transaction_hash := toBeBytes 3
    ethereum_log_index := 0 }

/-- A database whose `global_state` already holds `rowBlock5` while the
anchor tables are empty (so transaction hash 3 has no anchor row). -/
def dbConflict : DB :=
  { global_state := [rowBlock5]
    ethereum_transactions := []
    ethereum_blocks := []
    contract_states := [] }

/-- The empty database. -/
def dbEmpty : DB :=
  { global_state := []
    ethereum_transactions := []
    ethereum_blocks := []
    contract_states := [] }

/-- A database whose `contract_states` holds the single row
`(state_hash 10, contract_hash 20, storage_root 30)`. -/
def dbOneContract : DB :=
  { global_state := []
    ethereum_transactions := []
    ethereum_blocks := []
    contract_states := [{ state_hash := toBeBytes 10
                          hash := toBeBytes 20
                          root := toBeBytes 30 }] }

/-- Anchor rows for the out-of-order insertion scenario: three Ethereum
blocks and the three transactions anchoring StarkNet blocks 10, 12, 11. -/
def dbAnchors : DB :=
  { global_state := []
    ethereum_transactions :=
      [{ ethereum_block_hash := toBeBytes 21
         ethereum_transaction_hash := toBeBytes 31
         ethereum_transaction_index := 14 },
       { ethereum_block_hash := toBeBytes 22
         ethereum_transaction_hash := toBeBytes 32
         ethereum_transaction_index := 84 },
       { ethereum_block_hash := toBeBytes 23
         ethereum_transaction_hash := toBeBytes 33
         ethereum_transaction_index := 85 }]
    ethereum_blocks :=
      [{ ethereum_block_hash := toBeBytes 21, ethereum_block_number := 2003 },
       { ethereum_block_hash := toBeBytes 22, ethereum_block_number := 98123 },
       { ethereum_block_hash := toBeBytes 23,
         ethereum_block_number := 11298123 }]
    contract_states := [] }

/-- The database obtained by inserting StarkNet blocks numbered 10, 12, 11
— in that literal order — on top of the anchor rows. -/
def dbOutOfOrder : DB :=
  (GlobalStateTable.insert
    (GlobalStateTable.insert
      (GlobalStateTable.insert dbAnchors 10 110 210 31 1).2
      12 112 212 33 3).2
    11 111 211 32 2).2

/-- The `global_state` row written for block 12. -/
def gRow12 : GlobalStateRow :=
  { starknet_block_hash := toBeBytes 112
    starknet_block_number := 12
    starknet_global_root := toBeBytes 212
    ethereum_transaction_hash := toBeBytes 33
    ethereum_log_index := 3 }

/-- The anchor transaction row for block 12. -/
def tRow12 : EthereumTransactionsRow :=
  { ethereum_block_hash := toBeBytes 23
    ethereum_transaction_hash := toBeBytes 33
    ethereum_transaction_index := 85 }

/-- The anchor block row for block 12. -/
def bRow12 : EthereumBlocksRow :=
  { ethereum_block_hash := toBeBytes 23, ethereum_block_number := 11298123 }

/-- The record block 12's insert should round back out of `get_latest`. -/
def rec12 : GlobalStateRecord :=
  { block_number := 12
    block_hash := 112
    global_root := 212
    eth_block_number := 11298123
    eth_block_hash := 23
    eth_tx_hash := 33
    eth_tx_index := 85
    eth_log_index := 3 }

/-- A corrupted `global_state` row: its block-hash blob is a single byte. -/
def gRowCorrupt : GlobalStateRow :=
  { starknet_block_hash := [1]
    starknet_block_number := 5
    starknet_global_root := toBeBytes 6
    ethereum_transaction_hash := toBeBytes 3
    ethereum_log_index := 0 }

/-- The anchor transaction row joining with `gRowCorrupt`. -/
def tRowCorrupt : EthereumTransactionsRow :=
  { ethereum_block_hash := toBeBytes 4
    ethereum_transaction_hash := toBeBytes 3
    ethereum_transaction_index := 0 }

/-- The anchor block row joining with `tRowCorrupt`. -/
def bRowCorrupt : EthereumBlocksRow :=
  { ethereum_block_hash := toBeBytes 4, ethereum_block_number := 9 }

/-- A database whose only (fully anchored) global-state row is corrupted. -/
def dbCorruptGlobal : DB :=
  { global_state := [gRowCorrupt]
    ethereum_transactions := [tRowCorrupt]
    ethereum_blocks := [bRowCorrupt]
    contract_states := [] }

/-- A `contract_states` row whose stored root blob has only two bytes. -/
def rowCorruptRoot : ContractStatesRow :=
  { state_hash := toBeBytes 7
    hash := toBeBytes 8
    root := [1, 2] }

/-- A database holding only the corrupted contract-state row. -/
def dbCorruptContract : DB :=
  { global_state := []
    ethereum_transactions := []
    ethereum_blocks := []
    contract_states := [rowCorruptRoot] }

/-- A database with one `global_state` row and no anchor rows at all, so the
natural join is empty. -/
def dbUnanchored : DB :=
  { global_state := [rowBlock5]
    ethereum_transactions := []
    ethereum_blocks := []
    contract_states := [] }

theorem natToBeBytes_length (k n : Nat) : (natToBeBytes k n).length = k := by
  induction k generalizing n with
  | zero => rfl
  | succ k ih => simp [natToBeBytes, ih]

theorem beValue_append_byte (bs : Bytes) (b : Nat) :
    beValue (bs ++ [b]) = beValue bs * 256 + b := by
  simp [beValue, List.foldl_append]

theorem beValue_natToBeBytes (k n : Nat) (h : n < 256 ^ k) :
    beValue (natToBeBytes k n) = n := by
  induction k generalizing n with
  | zero =>
      have hn : n = 0 := by
        have h1 : n < 1 := by simpa using h
        omega
      subst hn; rfl
  | succ k ih =>
      have hdiv : n / 256 < 256 ^ k := by
        have h2 : n < 256 * 256 ^ k := by
          calc n < 256 ^ (k + 1) := h
          _ = 256 * 256 ^ k := by ring
        exact Nat.div_lt_of_lt_mul h2
      have hmod := Nat.div_add_mod n 256
      rw [natToBeBytes, beValue_append_byte, ih _ hdiv]
      omega

theorem toBeBytes_length (n : Nat) : (toBeBytes n).length = 32 :=
  natToBeBytes_length 32 n

theorem beValue_toBeBytes (n : Nat) (h : n < 2 ^ 256) :
    beValue (toBeBytes n) = n := by
  apply beValue_natToBeBytes
  have hpow : (256 : Nat) ^ 32 = 2 ^ 256 := by norm_num
  omega

theorem foldl_maxStep_mem (rows : List JoinedRow) :
    ∀ (acc : Option JoinedRow) (z : JoinedRow),
      rows.foldl maxStep acc = some z → acc = some z ∨ z ∈ rows := by
  induction rows with
  | nil =>
      intro acc z h
      exact Or.inl h
  | cons y ys ih =>
      intro acc z h
      rw [List.foldl_cons] at h
      rcases ih (maxStep acc y) z h with h1 | h2
      · cases acc with
        | none =>
            simp only [maxStep] at h1
            injection h1 with h1
            exact Or.inr (h1 ▸ List.mem_cons_self y ys)
        | some m =>
            simp only [maxStep] at h1
            split at h1
            · injection h1 with h1
              exact Or.inr (h1 ▸ List.mem_cons_self y ys)
            · exact Or.inl h1
      · exact Or.inr (List.mem_cons_of_mem y h2)

theorem foldl_maxStep_ge (rows : List JoinedRow) :
    ∀ (acc : Option JoinedRow) (z : JoinedRow),
      rows.foldl maxStep acc = some z →
      (∀ y ∈ rows, blockNumOf y ≤ blockNumOf z) ∧
      (∀ m, acc = some m → blockNumOf m ≤ blockNumOf z) := by
  induction rows with
  | nil =>
      intro acc z h
      rw [List.foldl_nil] at h
      refine ⟨by simp, ?_⟩
      intro m hm
      rw [hm] at h
      injection h with h
      rw [h]
  | cons y ys ih =>
      intro acc z h
      rw [List.foldl_cons] at h
      obtain ⟨hys, hacc⟩ := ih (maxStep acc y) z h
      have hy : blockNumOf y ≤ blockNumOf z := by
        cases acc with
        | none => exact hacc y rfl
        | some m =>
            by_cases hlt : blockNumOf m < blockNumOf y
            · exact hacc y (by simp [maxStep, hlt])
            · have hm := hacc m (by simp [maxStep, hlt])
              omega
      refine ⟨?_, ?_⟩
      · intro w hw
        rcases List.mem_cons.mp hw with hw' | hw'
        · exact hw' ▸ hy
        · exact hys w hw'
      · intro m hm
        subst hm
        by_cases hlt : blockNumOf m < blockNumOf y
        · omega
        · exact hacc m (by simp [maxStep, hlt])

theorem foldl_maxStep_none (rows : List JoinedRow) :
    ∀ acc, rows.foldl maxStep acc = none → acc = none ∧ rows = [] := by
  induction rows with
  | nil =>
      intro acc h
      exact ⟨h, rfl⟩
  | cons y ys ih =>
      intro acc h
      rw [List.foldl_cons] at h
      have hstep := (ih (maxStep acc y) h).1
      exfalso
      cases acc with
      | none => simp [maxStep] at hstep
      | some m =>
          simp only [maxStep] at hstep
          split at hstep <;> cases hstep

theorem argmaxJoined_mem {rows : List JoinedRow} {z : JoinedRow}
    (h : argmaxJoined rows = some z) : z ∈ rows := by
  rcases foldl_maxStep_mem rows none z h with h1 | h2
  · cases h1
  · exact h2

theorem argmaxJoined_max {rows : List JoinedRow} {z : JoinedRow}
    (h : argmaxJoined rows = some z) :
    ∀ y ∈ rows, blockNumOf y ≤ blockNumOf z :=
  (foldl_maxStep_ge rows none z h).1

theorem argmaxJoined_eq_none {rows : List JoinedRow}
    (h : argmaxJoined rows = none) : rows = [] :=
  (foldl_maxStep_none rows none h).2

theorem argmaxJoined_isSome {rows : List JoinedRow} (h : rows ≠ []) :
    ∃ z, argmaxJoined rows = some z := by
  cases hz : argmaxJoined rows with
  | none => exact absurd (argmaxJoined_eq_none hz) h
  | some z => exact ⟨z, rfl⟩

theorem mem_joinRows {db : DB} {z : JoinedRow} (h : z ∈ joinRows db) :
    z.1 ∈ db.global_state ∧ z.2.1 ∈ db.ethereum_transactions ∧
    z.2.2 ∈ db.ethereum_blocks ∧
    z.2.1.ethereum_transaction_hash = z.1.ethereum_transaction_hash ∧
    z.2.2.ethereum_block_hash = z.2.1.ethereum_block_hash := by
  simp only [joinRows, List.mem_flatMap] at h
  obtain ⟨g, hg, t, ht, b, hb, hz⟩ := h
  split at hz
  · rename_i hcond
    simp only [List.mem_singleton] at hz
    subst hz
    exact ⟨hg, ht, hb, hcond.1, hcond.2⟩
  · simp at hz

theorem joinRows_of_empty_global {db : DB} (h : db.global_state = []) :
    joinRows db = [] := by
  simp [joinRows, h]

theorem decodeGlobalStateRow_cases (g : GlobalStateRow)
    (t : EthereumTransactionsRow) (b : EthereumBlocksRow) :
    (∃ r, decodeGlobalStateRow g t b = .ok r) ∨
    ∃ msg, decodeGlobalStateRow g t b = .error (.DecodeError msg) := by
  rcases h1 : starkHashFromBeSlice g.starknet_block_hash with _ | bh
  · exact Or.inr ⟨_, by simp only [decodeGlobalStateRow, h1]; rfl⟩
  rcases h2 : starkHashFromBeSlice g.starknet_global_root with _ | gr
  · exact Or.inr ⟨_, by simp only [decodeGlobalStateRow, h1, h2]; rfl⟩
  rcases h3 : vecToH256 g.ethereum_transaction_hash with _ | th
  · exact Or.inr ⟨_, by simp only [decodeGlobalStateRow, h1, h2, h3]; rfl⟩
  rcases h4 : vecToH256 t.ethereum_block_hash with _ | ebh
  · exact Or.inr ⟨_, by simp only [decodeGlobalStateRow, h1, h2, h3, h4]; rfl⟩
  exact Or.inl ⟨_, by simp only [decodeGlobalStateRow, h1, h2, h3, h4]; rfl⟩

theorem decodeGlobalStateRow_txHash {g : GlobalStateRow}
    {t : EthereumTransactionsRow} {b : EthereumBlocksRow}
    {r : GlobalStateRecord} (h : decodeGlobalStateRow g t b = .ok r) :
    vecToH256 g.ethereum_transaction_hash = some r.eth_tx_hash := by
  rcases h1 : starkHashFromBeSlice g.starknet_block_hash with _ | bh
  · simp [decodeGlobalStateRow, h1] at h
  rcases h2 : starkHashFromBeSlice g.starknet_global_root with _ | gr
  · simp [decodeGlobalStateRow, h1, h2] at h
  rcases h3 : vecToH256 g.ethereum_transaction_hash with _ | th
  · simp [decodeGlobalStateRow, h1, h2, h3] at h
  rcases h4 : vecToH256 t.ethereum_block_hash with _ | ebh
  · simp [decodeGlobalStateRow, h1, h2, h3, h4] at h
  · simp only [decodeGlobalStateRow, h1, h2, h3, h4] at h
    injection h with h
    subst h
    rfl

theorem find?_append_of_none {α : Type} (p : α → Bool) (l1 l2 : List α)
    (h : ∀ x ∈ l1, p x = false) :
    (l1 ++ l2).find? p = l2.find? p := by
  induction l1 with
  | nil => rfl
  | cons x xs ih =>
      rw [List.cons_append,
        List.find?_cons_of_neg _ (by simp [h x (List.mem_cons_self x xs)]),
        ih (fun y hy => h y (List.mem_cons_of_mem x hy))]

/-- Claim C2: a `global_state` insert whose `block_hash` already keys a row
succeeds and leaves the database unchanged — the existing row is untouched
and no second row is created, whatever the other arguments are. -/
theorem global_insert_conflict_skips (db : DB) (block_number block_hash
    global_root eth_transaction eth_log_index : Nat) (g : GlobalStateRow)
    (hg : g ∈ db.global_state)
    (hhash : g.starknet_block_hash = toBeBytes block_hash) :
    GlobalStateTable.insert db block_number block_hash global_root
      eth_transaction eth_log_index = (.ok (), db) := by
  have hany : db.global_state.any
      (fun r => r.starknet_block_hash == toBeBytes block_hash) = true := by
    rw [List.any_eq_true]
    exact ⟨g, hg, by simp [hhash]⟩
  simp [GlobalStateTable.insert, hany]

/-- Claim C1 (amended): when no `global_state` row with the given
`block_hash` exists and no anchor row with the given transaction hash exists
in `ethereum_transactions`, `insert` fails with `DanglingReference` and the
database is unchanged. (As originally stated — without the fresh
`block_hash` condition — the claim is refuted by
`global_insert_dangling_counterexample`.) -/
theorem global_insert_fresh_dangling (db : DB) (block_number block_hash
    global_root eth_transaction eth_log_index : Nat)
    (hfresh : ∀ g ∈ db.global_state,
      g.starknet_block_hash ≠ toBeBytes block_hash)
    (hdangling : ∀ t ∈ db.ethereum_transactions,
      t.ethereum_transaction_hash ≠ toBeBytes eth_transaction) :
    GlobalStateTable.insert db block_number block_hash global_root
      eth_transaction eth_log_index = (.error .DanglingReference, db) := by
  have h1 : db.global_state.any
      (fun r => r.starknet_block_hash == toBeBytes block_hash) = false := by
    rw [List.any_eq_false]
    intro g hg
    simpa using hfresh g hg
  have h2 : db.ethereum_transactions.any
      (fun r => r.ethereum_transaction_hash == toBeBytes eth_transaction) = false := by
    rw [List.any_eq_false]
    intro t ht
    simpa using hdangling t ht
  simp [GlobalStateTable.insert, h1, h2]

theorem contract_insert_fresh (db : DB) (state_hash hash root : Nat)
    (hfresh : ∀ row ∈ db.contract_states,
      row.state_hash ≠ toBeBytes state_hash) :
    ContractsStateTable.insert db state_hash hash root =
      (.ok (), { db with contract_states := db.contract_states ++
        [{ state_hash := toBeBytes state_hash
           hash := toBeBytes hash
           root := toBeBytes root }] }) := by
  have hany : db.contract_states.any
      (fun r => r.state_hash == toBeBytes state_hash) = false := by
    rw [List.any_eq_false]
    intro r hr
    simpa using hfresh r hr
  simp [ContractsStateTable.insert, hany]

theorem contract_get_root_fresh_inserted (db : DB) (state_hash hash root : Nat)
    (hfresh : ∀ row ∈ db.contract_states,
      row.state_hash ≠ toBeBytes state_hash)
    (hroot : root < 2 ^ 252) :
    ContractsStateTable.get_root
      (ContractsStateTable.insert db state_hash hash root).2 state_hash =
      .ok (some root) := by
  rw [contract_insert_fresh db state_hash hash root hfresh]
  simp only [ContractsStateTable.get_root]
  rw [find?_append_of_none _ _ _ (fun r hr => by simpa using hfresh r hr)]
  have hval : beValue (toBeBytes root) = root :=
    beValue_toBeBytes root (by omega)
  have hroot' := hroot
  norm_num at hroot'
  simp [starkHashFromBeBytes, toBeBytes_length, hval, hroot']

theorem contract_get_root_absent (db : DB) (state_hash : Nat)
    (hfresh : ∀ row ∈ db.contract_states,
      row.state_hash ≠ toBeBytes state_hash) :
    ContractsStateTable.get_root db state_hash = .ok none := by
  have hfind : db.contract_states.find?
      (fun r => r.state_hash == toBeBytes state_hash) = none := by
    rw [List.find?_eq_none]
    intro r hr
    simpa using hfresh r hr
  simp [ContractsStateTable.get_root, hfind]

/-- Claim C4: a `contract_states` insert whose `state_hash` already keys a
row fails with `DuplicateKey` (primary-key violation) and leaves the table
unchanged, even when the paired `contract_hash` and `storage_root` are
identical to the stored ones. -/
theorem contract_insert_duplicate_fails (db : DB) (state_hash hash root : Nat)
    (row : ContractStatesRow) (hrow : row ∈ db.contract_states)
    (hkey : row.state_hash = toBeBytes state_hash) :
    ContractsStateTable.insert db state_hash hash root =
      (.error .DuplicateKey, db) := by
  have hany : db.contract_states.any
      (fun r => r.state_hash == toBeBytes state_hash) = true := by
    rw [List.any_eq_true]
    exact ⟨row, hrow, by simp [hkey]⟩
  simp [ContractsStateTable.insert, hany]

/-- Claim C5: for a fresh `state_hash`, `insert(state_hash, contract_hash,
storage_root)` succeeds and a subsequent `get_root(state_hash)` returns
exactly the stored root, while `get_root` on a never-inserted hash is
`Ok(None)`, not an error. -/
theorem contract_insert_get_root_roundtrip (db : DB)
    (state_hash hash root : Nat)
    (hfresh : ∀ row ∈ db.contract_states,
      row.state_hash ≠ toBeBytes state_hash)
    (hroot : root < 2 ^ 252) :
    (ContractsStateTable.insert db state_hash hash root).1 = .ok () ∧
    ContractsStateTable.get_root
      (ContractsStateTable.insert db state_hash hash root).2 state_hash =
      .ok (some root) ∧
    ContractsStateTable.get_root db state_hash = .ok none :=
  ⟨by rw [contract_insert_fresh db state_hash hash root hfresh],
   contract_get_root_fresh_inserted db state_hash hash root hfresh hroot,
   contract_get_root_absent db state_hash hfresh⟩

/-- Claim C10: `ContractsStateTable::insert` performs no validation that
`state_hash` is the hash of the paired values: any triple with a fresh
`state_hash` — related to `(contract_hash, storage_root)` or not — is
accepted, and `get_root` then serves the stored root back. -/
theorem contract_insert_unvalidated (db : DB) (state_hash hash root : Nat)
    (hfresh : ∀ row ∈ db.contract_states,
      row.state_hash ≠ toBeBytes state_hash)
    (hroot : root < 2 ^ 252) :
    (ContractsStateTable.insert db state_hash hash root).1 = .ok () ∧
    ContractsStateTable.get_root
      (ContractsStateTable.insert db state_hash hash root).2 state_hash =
      .ok (some root) :=
  ⟨by rw [contract_insert_fresh db state_hash hash root hfresh],
   contract_get_root_fresh_inserted db state_hash hash root hfresh hroot⟩

/-- Claim C8: when the `global_state` table holds no rows,
`get_latest_state` returns `Ok(None)`, not an error. -/
theorem get_latest_state_empty (db : DB) (h : db.global_state = []) :
    GlobalStateTable.get_latest_state db = .ok none := by
  have hj : joinRows db = [] := joinRows_of_empty_global h
  simp [GlobalStateTable.get_latest_state, argmaxJoined, hj]

/-- Claim C7: `migrate` creates both tables from an absent schema at the
`EMPTY` version, is a successful no-op at the `CURRENT` version, and fails
with `UnknownSchemaVersion` (changing nothing) for every other version. -/
theorem migrate_version_behaviour :
    migrate ⟨false, false⟩ DB_VERSION_EMPTY = (.ok (), ⟨true, true⟩) ∧
    (∀ s : Schema, migrate s DB_VERSION_CURRENT = (.ok (), s)) ∧
    (∀ (s : Schema) (v : Nat), v ≠ DB_VERSION_EMPTY → v ≠ DB_VERSION_CURRENT →
      migrate s v = (.error (.UnknownSchemaVersion v), s)) := by
  refine ⟨rfl, ?_, ?_⟩
  · intro s
    simp [migrate, GlobalStateTable.migrate, ContractsStateTable.migrate,
      DB_VERSION_EMPTY, DB_VERSION_CURRENT]
  · intro s v h0 h1
    simp [migrate, GlobalStateTable.migrate, ContractsStateTable.migrate, h0, h1]

theorem decodeGlobalStateRow_ok_parses {g : GlobalStateRow}
    {t : EthereumTransactionsRow} {b : EthereumBlocksRow}
    {r : GlobalStateRecord} (h : decodeGlobalStateRow g t b = .ok r) :
    (∃ x, starkHashFromBeSlice g.starknet_block_hash = some x) ∧
    (∃ x, starkHashFromBeSlice g.starknet_global_root = some x) ∧
    (∃ x, vecToH256 g.ethereum_transaction_hash = some x) ∧
    (∃ x, vecToH256 t.ethereum_block_hash = some x) := by
  rcases h1 : starkHashFromBeSlice g.starknet_block_hash with _ | bh
  · simp [decodeGlobalStateRow, h1] at h
  rcases h2 : starkHashFromBeSlice g.starknet_global_root with _ | gr
  · simp [decodeGlobalStateRow, h1, h2] at h
  rcases h3 : vecToH256 g.ethereum_transaction_hash with _ | th
  · simp [decodeGlobalStateRow, h1, h2, h3] at h
  rcases h4 : vecToH256 t.ethereum_block_hash with _ | ebh
  · simp [decodeGlobalStateRow, h1, h2, h3, h4] at h
  · exact ⟨⟨bh, rfl⟩, ⟨gr, rfl⟩, ⟨th, rfl⟩, ⟨ebh, rfl⟩⟩

/-- Claim C6: when the row a read operation actually selects holds a blob
that fails to parse back into its fixed-width type, the operation fails
with a `DecodeError` instead of returning `None` or a truncated value: a
selected joined row with any unparseable hash/root field makes
`get_latest_state` fail, and a found `contract_states` row with a malformed
`root` makes `get_root` fail. -/
theorem decode_failure_is_error (db : DB) (g : GlobalStateRow)
    (t : EthereumTransactionsRow) (b : EthereumBlocksRow)
    (row : ContractStatesRow) (state_hash : Nat) :
    (argmaxJoined (joinRows db) = some (g, t, b) →
      (starkHashFromBeSlice g.starknet_block_hash = none ∨
       starkHashFromBeSlice g.starknet_global_root = none ∨
       vecToH256 g.ethereum_transaction_hash = none ∨
       vecToH256 t.ethereum_block_hash = none) →
      ∃ msg, GlobalStateTable.get_latest_state db =
        .error (.DecodeError msg)) ∧
    (db.contract_states.find?
        (fun r => r.state_hash == toBeBytes state_hash) = some row →
      ¬ (row.root.length = 32 ∧ beValue row.root < 2 ^ 252) →
      ∃ msg, ContractsStateTable.get_root db state_hash =
        .error (.DecodeError msg)) := by
  constructor
  · intro hsel hbad
    rcases decodeGlobalStateRow_cases g t b with ⟨r, hr⟩ | ⟨msg, hmsg⟩
    · exfalso
      obtain ⟨⟨x1, p1⟩, ⟨x2, p2⟩, ⟨x3, p3⟩, ⟨x4, p4⟩⟩ :=
        decodeGlobalStateRow_ok_parses hr
      rcases hbad with hb | hb | hb | hb <;> simp_all
    · exact ⟨msg, by simp [GlobalStateTable.get_latest_state, hsel, hmsg]⟩
  · intro hfind hbad
    by_cases hlen : row.root.length = 32
    · have hval : ¬ beValue row.root < 2 ^ 252 := fun hv => hbad ⟨hlen, hv⟩
      norm_num at hval
      refine ⟨"Overflow in contract root", ?_⟩
      simp [ContractsStateTable.get_root, hfind, hlen, starkHashFromBeBytes]
      rw [if_neg (by omega)]
    · exact ⟨"Bad contract root length",
        by simp [ContractsStateTable.get_root, hfind, hlen]⟩

/-- Claim C9: `get_latest_state` never yields a record lacking its layer-1
anchor: any returned record's Ethereum transaction hash comes from an
`ethereum_transactions` row whose block hash in turn has an
`ethereum_blocks` row, because unjoinable `global_state` rows are excluded
by the natural join; and when no row is joinable the result is `Ok(None)`,
not an error. -/
theorem get_latest_state_anchored (db : DB) :
    (∀ r : GlobalStateRecord,
      GlobalStateTable.get_latest_state db = .ok (some r) →
      ∃ t ∈ db.ethereum_transactions, ∃ b ∈ db.ethereum_blocks,
        vecToH256 t.ethereum_transaction_hash = some r.eth_tx_hash ∧
        b.ethereum_block_hash = t.ethereum_block_hash) ∧
    (joinRows db = [] → GlobalStateTable.get_latest_state db = .ok none) := by
  constructor
  · intro r hok
    cases hsel : argmaxJoined (joinRows db) with
    | none =>
        rw [GlobalStateTable.get_latest_state, hsel] at hok
        cases hok
    | some z =>
        obtain ⟨g, t, b⟩ := z
        cases hdec : decodeGlobalStateRow g t b with
        | error e =>
            simp [GlobalStateTable.get_latest_state, hsel, hdec] at hok
        | ok r0 =>
            simp only [GlobalStateTable.get_latest_state, hsel, hdec] at hok
            injection hok with hok
            injection hok with hok
            subst hok
            obtain ⟨hg, ht, hb, htx, hbh⟩ :=
              mem_joinRows (argmaxJoined_mem hsel)
            refine ⟨t, ht, b, hb, ?_, hbh⟩
            rw [htx]
            exact decodeGlobalStateRow_txHash hdec
  · intro hj
    rw [GlobalStateTable.get_latest_state]
    rw [show argmaxJoined (joinRows db) = none from by
      rw [hj]; rfl]

/-- Claim C3: when a joined row `(g, t, b)` attains the maximal
`starknet_block_number` over the whole joined table, is the only row
attaining it, and decodes to `rec`, then `get_latest_state` returns
`Some rec` — the result depends only on block numbers, never on insertion
order. -/
theorem get_latest_state_returns_max (db : DB) (g : GlobalStateRow)
    (t : EthereumTransactionsRow) (b : EthereumBlocksRow) (n : Nat)
    (rec : GlobalStateRecord)
    (hmem : (g, t, b) ∈ joinRows db)
    (hn : g.starknet_block_number = n)
    (hmax : ∀ z ∈ joinRows db, blockNumOf z ≤ n)
    (huniq : ∀ z ∈ joinRows db, blockNumOf z = n → z = (g, t, b))
    (hdec : decodeGlobalStateRow g t b = .ok rec) :
    GlobalStateTable.get_latest_state db = .ok (some rec) := by
  have hne : joinRows db ≠ [] := by
    intro hempty
    rw [hempty] at hmem
    cases hmem
  obtain ⟨z, hz⟩ := argmaxJoined_isSome hne
  have hzmem := argmaxJoined_mem hz
  have hzmax := argmaxJoined_max hz
  have hzn : blockNumOf z = n := by
    have h1 := hmax z hzmem
    have h2 := hzmax (g, t, b) hmem
    have h3 : blockNumOf (g, t, b) = n := hn
    omega
  have hzeq : z = (g, t, b) := huniq z hzmem hzn
  subst hzeq
  simp [GlobalStateTable.get_latest_state, hz, hdec]

/-- Claim C1 counterexample: in `dbConflict` the anchor store has no row at
all (so transaction hash 3 is dangling), yet `insert` with the already-used
block hash 5 succeeds and persists nothing, instead of failing with
`DanglingReference` as the claim requires for every database state. -/
theorem global_insert_dangling_counterexample :
    dbConflict.ethereum_transactions = [] ∧
    GlobalStateTable.insert dbConflict 7 5 9 3 0 = (.ok (), dbConflict) :=
  ⟨rfl, rfl⟩

/-- Witness for the amended claim C1 at a concrete input. -/
theorem global_insert_fresh_dangling_witness :
    GlobalStateTable.insert dbEmpty 7 5 9 3 0 =
      (.error .DanglingReference, dbEmpty) :=
  global_insert_fresh_dangling dbEmpty 7 5 9 3 0 (by simp [dbEmpty])
    (by simp [dbEmpty])

/-- Witness for claim C2: re-inserting block hash 5 with entirely different
values succeeds and leaves `dbConflict` intact. -/
theorem global_insert_conflict_skips_witness :
    GlobalStateTable.insert dbConflict 100 5 200 300 400 = (.ok (), dbConflict) :=
  global_insert_conflict_skips dbConflict 100 5 200 300 400 rowBlock5
    (by simp [dbConflict]) rfl

/-- Witness for claim C4: re-inserting the identical triple fails with
`DuplicateKey`. -/
theorem contract_insert_duplicate_fails_witness :
    ContractsStateTable.insert dbOneContract 10 20 30 =
      (.error .DuplicateKey, dbOneContract) :=
  contract_insert_duplicate_fails dbOneContract 10 20 30
    { state_hash := toBeBytes 10, hash := toBeBytes 20, root := toBeBytes 30 }
    (by simp [dbOneContract]) rfl

/-- Witness for claim C5 at a concrete fresh triple. -/
theorem contract_insert_get_root_roundtrip_witness :
    (ContractsStateTable.insert dbEmpty 10 20 30).1 = .ok () ∧
    ContractsStateTable.get_root
      (ContractsStateTable.insert dbEmpty 10 20 30).2 10 = .ok (some 30) ∧
    ContractsStateTable.get_root dbEmpty 10 = .ok none :=
  contract_insert_get_root_roundtrip dbEmpty 10 20 30 (by simp [dbEmpty])
    (by norm_num)

/-- Witness for claim C10: state hash 1 is certainly not the content hash of
the pair (2, 3), yet the triple is stored and served back. -/
theorem contract_insert_unvalidated_witness :
    (ContractsStateTable.insert dbEmpty 1 2 3).1 = .ok () ∧
    ContractsStateTable.get_root
      (ContractsStateTable.insert dbEmpty 1 2 3).2 1 = .ok (some 3) :=
  contract_insert_unvalidated dbEmpty 1 2 3 (by simp [dbEmpty]) (by norm_num)

/-- Witness for claim C8 on the empty database. -/
theorem get_latest_state_empty_witness :
    GlobalStateTable.get_latest_state dbEmpty = .ok none :=
  get_latest_state_empty dbEmpty rfl

/-- Witness for claim C7 at concrete versions. -/
theorem migrate_version_behaviour_witness :
    migrate ⟨true, true⟩ DB_VERSION_CURRENT = (.ok (), ⟨true, true⟩) ∧
    migrate ⟨true, true⟩ 5 = (.error (.UnknownSchemaVersion 5), ⟨true, true⟩) :=
  ⟨migrate_version_behaviour.2.1 ⟨true, true⟩,
   migrate_version_behaviour.2.2 ⟨true, true⟩ 5 (by decide) (by decide)⟩

/-- Witness for claim C3: inserting blocks 10, 12, 11 in that order and then
reading the latest state yields exactly the record inserted for block 12. -/
theorem get_latest_state_returns_max_witness :
    GlobalStateTable.get_latest_state dbOutOfOrder = .ok (some rec12) :=
  get_latest_state_returns_max dbOutOfOrder gRow12 tRow12 bRow12 12 rec12
    (by decide) rfl (by decide) (by decide) rfl

/-- Witness for claim C6: both read paths surface a `DecodeError` on the
corrupted rows above. -/
theorem decode_failure_is_error_witness :
    (∃ msg, GlobalStateTable.get_latest_state dbCorruptGlobal =
      .error (.DecodeError msg)) ∧
    (∃ msg, ContractsStateTable.get_root dbCorruptContract 7 =
      .error (.DecodeError msg)) :=
  ⟨(decode_failure_is_error dbCorruptGlobal gRowCorrupt tRowCorrupt bRowCorrupt
      rowCorruptRoot 7).1 (by decide) (Or.inl (by decide)),
   (decode_failure_is_error dbCorruptContract gRowCorrupt tRowCorrupt bRowCorrupt
      rowCorruptRoot 7).2 (by decide) (by decide)⟩

/-- Witness for claim C9: the record returned over `dbOutOfOrder` is backed
by anchor rows, and over `dbUnanchored` (whose only row is unjoinable)
`get_latest_state` returns `Ok(None)`. -/
theorem get_latest_state_anchored_witness :
    (∃ t ∈ dbOutOfOrder.ethereum_transactions,
      ∃ b ∈ dbOutOfOrder.ethereum_blocks,
        vecToH256 t.ethereum_transaction_hash = some rec12.eth_tx_hash ∧
        b.ethereum_block_hash = t.ethereum_block_hash) ∧
    GlobalStateTable.get_latest_state dbUnanchored = .ok none :=
  ⟨(get_latest_state_anchored dbOutOfOrder).1 rec12 rfl,
   (get_latest_state_anchored dbUnanchored).2 rfl⟩

